import Mathlib

/-!
# Verification of the data-collection extraction pipeline

Shallow embedding of the spell/bestiary scraping pipeline from
`src/data_extraction/spiders/spell_scraper.py`,
`src/data_extraction/spiders/bestiary_scraper.py` and
`src/data_extraction/run/run_spell_scraper.py`, together with proofs of the
frozen specification claims.

Conventions of the embedding:
* Python/JSON values are the inductive `Json`; a Python `dict` is an ordered
  association list with unique keys (as `json.loads` produces).
* Network and browser effects are inputs: each fallible external step is a
  field of an environment structure describing its outcome for the run.
* A Python function that may raise is `Except String`; the string names the
  exception.  A function whose body catches every exception returns plainly.
* File writes are recorded in result structures rather than performed.
-/

/-- JSON-like values as produced by `json.loads` / page evaluation. -/
inductive Json where
  | null : Json
  | bool : Bool → Json
  | num : Int → Json
  | str : String → Json
  | arr : List Json → Json
  | obj : List (String × Json) → Json

/-! ## DirectFetchStrategy — `SpellScraper.direct_json_fetch`
(spell_scraper.py lines 371-453)

Each candidate endpoint's interaction with the network is summarised by an
`EndpointOutcome`: the `page.goto` call may raise or return a non-ok
response, the response may have the wrong content type, `json.loads` may
fail, or a parsed JSON document is obtained. -/

/-- Outcome of trying one candidate endpoint in `direct_json_fetch`. -/
inductive EndpointOutcome where
  /-- `page.goto` raised (timeout, network error). -/
  | fetchError : EndpointOutcome
  /-- Response present but `response.ok` false. -/
  | httpError : EndpointOutcome
  /-- Content type neither `application/json` nor `text/plain`. -/
  | wrongContentType : EndpointOutcome
  /-- `json.loads` raised `JSONDecodeError`. -/
  | parseError : EndpointOutcome
  /-- Parsed JSON document (after optional `<pre>` unwrapping). -/
  | parsed : Json → EndpointOutcome

/-- Python iteration as used by `list.extend(x)`: a list yields its
elements, a dict yields its keys, a string yields its characters, and any
other value raises `TypeError` (`none`). -/
def pyIter : Json → Option (List Json)
  | .arr xs => some xs
  | .obj kvs => some (kvs.map fun kv => .str kv.1)
  | .str s => some (s.data.map fun c => .str (String.mk [c]))
  | _ => none

/-- Whether a dict value duck-types as a spell entity:
`isinstance(value, dict) and 'name' in value and 'source' in value`
(spell_scraper.py lines 433-435). -/
def looksLikeEntity : Json → Bool
  | .obj fields => (fields.lookup "name").isSome && (fields.lookup "source").isSome
  | _ => false

/-- Records contributed by one successfully parsed endpoint document
(spell_scraper.py lines 418-435): a list is taken whole; a dict is tried
for the known wrapping keys `"spell"` then `"spells"` (whose value is
iterated by `extend`, `none` = `TypeError` escaping to the per-endpoint
handler), else its values are duck-typed; any scalar contributes nothing. -/
def endpointSpells : Json → Option (List Json)
  | .arr xs => some xs
  | .obj kvs =>
    match kvs.lookup "spell" with
    | some v => pyIter v
    | none =>
      match kvs.lookup "spells" with
      | some v => pyIter v
      | none =>
        some (kvs.filterMap fun kv =>
          if looksLikeEntity kv.2 then some kv.2 else none)
  | _ => some []

/-- The records a single endpoint outcome contributes when tried with an
empty accumulator: failures of any kind contribute nothing. -/
def endpointYield : EndpointOutcome → List Json
  | .parsed j => (endpointSpells j).getD []
  | _ => []

/-- Loop body of `direct_json_fetch` (spell_scraper.py lines 398-449):
fold over the candidate endpoints carrying `all_spells`; a successful
parse extends the accumulator and the loop breaks as soon as the
accumulator is non-empty; every failure (raise, bad response, bad content
type, parse failure, `TypeError` in `extend`) is caught and the next
candidate is tried. -/
def directFetchLoop : List EndpointOutcome → List Json → List Json
  | [], acc => acc
  | o :: rest, acc =>
    match o with
    | .parsed j =>
      match endpointSpells j with
      | some newSpells =>
        let acc2 := acc ++ newSpells
        if acc2.isEmpty then directFetchLoop rest acc2 else acc2
      | none => directFetchLoop rest acc
    | _ => directFetchLoop rest acc

/-- `SpellScraper.direct_json_fetch`, as a function of the per-endpoint
outcomes for this run.  Returns the accumulated `all_spells` list
(`[]` when every candidate is exhausted). -/
def direct_json_fetch (outcomes : List EndpointOutcome) : List Json :=
  directFetchLoop outcomes []

/-! ## Result-count limit — `scrape_spells` / `scrape_monsters` / runner
(spell_scraper.py lines 476-479, bestiary_scraper.py lines 187-188,
run_spell_scraper.py lines 24-25) -/

/-- Python slice `xs[:n]` for an `int` bound `n`: a non-negative bound keeps
the first `n` elements, a negative bound drops the last `|n|`. -/
def pySliceTo (n : Int) (xs : List α) : List α :=
  if 0 ≤ n then xs.take n.toNat else xs.take (xs.length - n.natAbs)

/-- `if limit and len(spell_data) > limit: spell_data = spell_data[:limit]`
(spell_scraper.py lines 477-479).  `limit` is truthy iff it is a non-zero
integer. -/
def spellSelect (limit : Option Int) (xs : List α) : List α :=
  match limit with
  | none => xs
  | some n => if n ≠ 0 ∧ (xs.length : Int) > n then pySliceTo n xs else xs

/-- `if limit: monster_data = monster_data[:limit]`
(bestiary_scraper.py lines 187-188). -/
def monsterSelect (limit : Option Int) (xs : List α) : List α :=
  match limit with
  | none => xs
  | some n => if n ≠ 0 then pySliceTo n xs else xs

/-- Decimal value of an all-digit string, as Python `int(s)` computes it.
Only meaningful when every character is an ASCII digit. -/
def pyStrToNat (s : String) : Nat :=
  s.data.foldl (fun a c => a * 10 + (c.toNat - 48)) 0

/-- `limit = int(limit_str) if limit_str and limit_str.isdigit() else None`
(run_spell_scraper.py line 25); `str.isdigit` modelled on ASCII digits. -/
def parseLimitEnv : Option String → Option Int
  | none => none
  | some s =>
    if s ≠ "" ∧ s.data.all Char.isDigit then some (pyStrToNat s) else none

/-! ## Browser-tier in-page extraction — `SpellScraper.extract_spell_data`
(spell_scraper.py lines 259-369)

The evaluated page function reads the global `spellList`; when it is
undefined, null, or has no elements, the DOM fallback queries
`ul.spells li.row` rows.  A `DomRow` carries the text content of each
queried sub-element (`none` = sub-element absent) and the class attribute
of the `.school` sub-element. -/

/-- State of the in-page global `spellList`. -/
inductive JsVar where
  | undef : JsVar
  | jsNull : JsVar
  | arr : List Json → JsVar

/-- One `ul.spells li.row` element: text of each known sub-element
(`none` when `querySelector` finds nothing) and the class name of the
`.school` sub-element. -/
structure DomRow where
  nameText : Option String
  sourceText : Option String
  levelText : Option String
  timeText : Option String
  schoolClassName : Option String
  rangeText : Option String
  classesText : Option String

/-- `el ? el.textContent.trim() : ''` for one sub-element. -/
def domText (o : Option String) : String :=
  (o.map String.trim).getD ""

/-- `schoolEl ? schoolEl.className.split('_')[1] || '' : ''`
(spell_scraper.py line 306). -/
def schoolFromClass : Option String → String
  | none => ""
  | some cls => ((cls.splitOn "_").getD 1 "")

/-- Record built from one DOM row (spell_scraper.py lines 302-310); a
missing sub-element contributes the empty string, never a skipped row. -/
def extractRowDom (r : DomRow) : List (String × Json) :=
  [("name", .str (domText r.nameText)),
   ("source", .str (domText r.sourceText)),
   ("level", .str (domText r.levelText)),
   ("school", .str (schoolFromClass r.schoolClassName)),
   ("time", .str (domText r.timeText)),
   ("range", .str (domText r.rangeText)),
   ("classes", .str (domText r.classesText))]

/-- JS property access `spell.k` on a raw entity object; an absent
property reads as an empty value. -/
def jget (j : Json) (k : String) : Json :=
  match j with
  | .obj kvs => (kvs.lookup k).getD .null
  | _ => .null

/-- Primary-tier mapping of one `spellList` element to the fixed Record
schema (spell_scraper.py lines 270-286). -/
def mapSpellGlobal (spell : Json) : List (String × Json) :=
  [("name", jget spell "name"),
   ("source", jget spell "source"),
   ("level", jget spell "level"),
   ("school", jget spell "school"),
   ("time", jget spell "time"),
   ("range", jget spell "range"),
   ("components", jget spell "components"),
   ("duration", jget spell "duration"),
   ("classes", jget spell "classes"),
   ("entries", jget spell "entries"),
   ("damageInflict", jget spell "damageInflict"),
   ("savingThrow", jget spell "savingThrow"),
   ("opposedCheck", jget spell "opposedCheck"),
   ("meta", jget spell "meta"),
   ("page", jget spell "page")]

/-- DOM fallback tier (spell_scraper.py lines 290-315): map every found
row; with no rows the page function falls through to `return []`. -/
def domTierSpells (rows : List DomRow) : List (List (String × Json)) :=
  if rows.length > 0 then rows.map extractRowDom else []

/-- The evaluated page function of `SpellScraper.extract_spell_data`
(spell_scraper.py lines 266-320).  The later JSON-source probe (lines
322-362) is diagnostic only and never changes the returned data. -/
def extract_spell_data (spellList : JsVar) (rows : List DomRow) :
    List (List (String × Json)) :=
  match spellList with
  | .arr xs => if xs.length > 0 then xs.map mapSpellGlobal else domTierSpells rows
  | _ => domTierSpells rows

/-! ## Readiness step — `wait_for_critical_scripts`
(spell_scraper.py lines 143-214, bestiary_scraper.py lines 28-63)

Inputs: per-script wait outcomes (`true` = the script tag attached within
its bounded timeout) plus the outcomes of the later bounded waits. -/

/-- Environment for one readiness evaluation. -/
structure ScriptWaitEnv where
  /-- For each expected critical script, whether its tag attached in time. -/
  scriptWaits : List (String × Bool)
  /-- `wait_for_load_state('domcontentloaded')` returned in time. -/
  domLoadOk : Bool
  /-- The one-shot `page.evaluate` of the key-object probe succeeded. -/
  evalOk : Bool
  /-- The debug screenshot write succeeded. -/
  screenshotOk : Bool
  /-- `jQuery` already defined at probe time. -/
  jQueryDefined : Bool
  /-- `Parser` already defined at probe time. -/
  parserDefined : Bool
  /-- The bounded `wait_for_function` for the key objects succeeded. -/
  keyObjsOk : Bool

/-- What one readiness evaluation did: which warnings and errors it
logged, and whether an exception propagated out of it. -/
structure ScriptWaitResult where
  warnings : List String
  errors : List String
  raised : Bool

/-- Per-script loop of the spell scraper (spell_scraper.py lines 158-165):
each wait sits in its own try, so a timeout logs a warning and moves on. -/
def scriptLoopWarnings : List (String × Bool) → List String
  | [] => []
  | (s, ok) :: rest =>
    (if ok then [] else ["Could not find script " ++ s]) ++ scriptLoopWarnings rest

/-- `all(ok)` over the per-script waits (the `scripts_found` flag). -/
def allScriptsFound : List (String × Bool) → Bool
  | [] => true
  | (_, ok) :: rest => ok && allScriptsFound rest

/-- `SpellScraper.wait_for_critical_scripts` (spell_scraper.py lines
143-214).  Every path is inside the outer `try`, whose handler logs an
error plus a continuation warning and returns normally, so no branch
raises. -/
def SpellScraper.wait_for_critical_scripts (env : ScriptWaitEnv) : ScriptWaitResult :=
  let ws := scriptLoopWarnings env.scriptWaits
  let ws := if allScriptsFound env.scriptWaits then ws
            else ws ++ ["Not all scripts were found. Continuing anyway."]
  if !env.domLoadOk ∨ !env.evalOk ∨ !env.screenshotOk then
    { warnings := ws ++ ["Continuing execution despite script loading issues"],
      errors := ["Error waiting for scripts"], raised := false }
  else if (!env.jQueryDefined ∨ !env.parserDefined) ∧ !env.keyObjsOk then
    { warnings := ws ++ ["Timeout waiting for key JavaScript objects",
                         "Attempting to continue without all scripts loaded"],
      errors := [], raised := false }
  else
    { warnings := ws, errors := [], raised := false }

/-- First critical script whose wait timed out, if any. -/
def firstMissingScript : List (String × Bool) → Option String
  | [] => none
  | (s, ok) :: rest => if ok then firstMissingScript rest else some s

/-- Environment for one bestiary run (`BestiaryScraper.scrape_monsters`). -/
structure BestiaryEnv where
  /-- `page.goto` returned an ok response. -/
  loadOk : Bool
  /-- Per-script wait outcomes of `wait_for_critical_scripts`. -/
  scriptWaits : List (String × Bool)
  /-- `wait_for_load_state('domcontentloaded')` returned in time. -/
  domLoadOk : Bool
  /-- The `wait_for_function` for `jQuery`/`Parser`/`Utils` succeeded. -/
  keyObjsOk : Bool
  /-- Result of `extract_monster_data` (it catches its own errors). -/
  monsterData : List Json
  /-- The `monsters.json` write succeeded. -/
  writeOk : Bool

/-- `BestiaryScraper.wait_for_critical_scripts` (bestiary_scraper.py lines
28-63): the per-script waits have no inner try, and the outer handler
logs an error and re-raises, so the first timeout propagates out. -/
def BestiaryScraper.wait_for_critical_scripts (env : BestiaryEnv) : Except String Unit :=
  match firstMissingScript env.scriptWaits with
  | some s => .error ("TimeoutError waiting for " ++ s)
  | none =>
    if !env.domLoadOk then .error "TimeoutError waiting for domcontentloaded"
    else if !env.keyObjsOk then .error "TimeoutError waiting for key objects"
    else .ok ()

/-- `BestiaryScraper.scrape_monsters` (bestiary_scraper.py lines 118-200):
load page, readiness step (its exception propagates), extract, slice by
the truthy limit, write `monsters.json` unconditionally.  Returns the
content written to the data file. -/
def BestiaryScraper.scrape_monsters (env : BestiaryEnv) (limit : Option Int) :
    Except String (Option (List Json)) :=
  if !env.loadOk then .error "Failed to load page"
  else
    match BestiaryScraper.wait_for_critical_scripts env with
    | .error e => .error e
    | .ok () =>
      let data := monsterSelect limit env.monsterData
      if env.writeOk then .ok (some data) else .error "OSError"

/-- `BestiaryScraper.run` (bestiary_scraper.py lines 202-208): logs and
re-raises, so it is `scrape_monsters` unchanged. -/
def BestiaryScraper.run (env : BestiaryEnv) (limit : Option Int) :
    Except String (Option (List Json)) :=
  BestiaryScraper.scrape_monsters env limit

/-! ## ExtractionPipeline — `SpellScraper.scrape_spells` / `SpellScraper.run`
(spell_scraper.py lines 455-492 and 817-863) -/

/-- Environment for one spell-scraper run: the record sequence the browser
strategy came back with (`_scrape_with_browser` catches every failure and
returns `[]`), the per-endpoint outcomes available to the direct-fetch
strategy, and whether each file write succeeds. -/
structure SpellEnv where
  /-- Return value of `_scrape_with_browser` (already `[]` on any failure). -/
  browserData : List Json
  /-- Per-endpoint outcomes seen by `direct_json_fetch`. -/
  fetchOutcomes : List EndpointOutcome
  /-- The `spells.json` write succeeds. -/
  writeOk : Bool

/-- The full strategy output of one run before any truncation: browser
data if non-empty, otherwise the direct-fetch result.  Takes no limit
parameter — extraction is independent of the configured limit. -/
def strategyData (env : SpellEnv) : List Json :=
  if env.browserData.isEmpty then direct_json_fetch env.fetchOutcomes
  else env.browserData

/-- A Python value as returned by `scrape_spells` and inspected by `run`. -/
inductive PyVal where
  | vNone : PyVal
  | vList : List Json → PyVal

/-- Observable effects of one `scrape_spells` call. -/
structure SpellScrapeOut where
  /-- `direct_json_fetch` was invoked (browser data was empty). -/
  fetchAttempted : Bool
  /-- Content written to `spells.json`, if any. -/
  dataFile : Option (List Json)

/-- `SpellScraper.scrape_spells` (spell_scraper.py lines 455-492): browser
strategy, then direct fetch if that was empty, then the truthy-guarded
truncation, then a write only when data remains; the function body ends
without a `return`, so the Python return value is always `None`.  Only
the file write can raise (re-raised by the fatal handler). -/
def scrape_spells (env : SpellEnv) (limit : Option Int) :
    Except String (SpellScrapeOut × PyVal) :=
  let data0 := env.browserData
  let attempted := data0.isEmpty
  let data1 := if data0.isEmpty then direct_json_fetch env.fetchOutcomes else data0
  let data2 := spellSelect limit data1
  if data2.isEmpty then .ok ({ fetchAttempted := attempted, dataFile := none }, .vNone)
  else if env.writeOk then
    .ok ({ fetchAttempted := attempted, dataFile := some data2 }, .vNone)
  else .error "OSError writing spells.json"

/-- Truthiness of `spells and len(spells) > 0` (spell_scraper.py line
832): `None` short-circuits the conjunction to a falsy value. -/
def pyGuardNonEmpty : PyVal → Bool
  | .vNone => false
  | .vList xs => !xs.isEmpty

/-- Relative paths of the manual-fallback artifacts produced by
`provide_manual_extraction_instructions` (spell_scraper.py lines 669-815)
under the output directory. -/
def manualArtifactPaths : List String :=
  ["manual/extract_spells.js", "manual/README.md"]

/-- Environment for `SpellScraper.run`: the scraping environment plus the
outcome of writing the manual-fallback artifacts. -/
structure RunEnv where
  spell : SpellEnv
  /-- Writes of `extract_spells.js` and `README.md` succeed. -/
  manualWriteOk : Bool

/-- Observable effects of one `SpellScraper.run` call. -/
structure RunOut where
  /-- `direct_json_fetch` was invoked inside `scrape_spells`. -/
  fetchAttempted : Bool
  /-- Content written to `spells.json` by `scrape_spells`, if any. -/
  dataFile : Option (List Json)
  /-- The attribute `self.output_file` (assigned nowhere) was read. -/
  readOutputFile : Bool
  /-- `provide_manual_extraction_instructions` ran to completion. -/
  manualEmitted : Bool
  /-- Manual-fallback files written, relative to the output directory. -/
  manualFiles : List String

/-- `SpellScraper.run` (spell_scraper.py lines 817-863): call
`scrape_spells`, test `spells and len(spells) > 0`, and on the truthy
branch read `self.output_file` — an attribute no method assigns, so that
branch raises `AttributeError` (re-raised by the handler); otherwise fall
through to `provide_manual_extraction_instructions`, whose file-write
failures also propagate. -/
def SpellScraper.run (env : RunEnv) (limit : Option Int) : Except String RunOut :=
  match scrape_spells env.spell limit with
  | .error e => .error e
  | .ok (s, spells) =>
    if pyGuardNonEmpty spells then
      .error "AttributeError: output_file"
    else if env.manualWriteOk then
      .ok { fetchAttempted := s.fetchAttempted, dataFile := s.dataFile,
            readOutputFile := false, manualEmitted := true,
            manualFiles := manualArtifactPaths }
    else .error "OSError writing manual artifacts"

/-! ## Persisted output format — `json.dump(..., ensure_ascii=False, indent=4)`
and `json.load` (spell_scraper.py lines 483-485, bestiary_scraper.py lines
191-193)

The persisted document is a JSON array of records.  Records follow the
spec's data model: an ordered mapping from field name to a value that may
be text, a number, or absent (`null`).  The writer reproduces the exact
text `json.dump` emits for such a document with `ensure_ascii=False` and
`indent=4`; the reader models `json.load` on that document class.  Both
work on `List Char` (the file's UTF-8 text, character by character). -/

/-- A scalar field value of a persisted record. -/
inductive Prim where
  | pstr : String → Prim
  | pint : Int → Prim
  | pnull : Prim
deriving DecidableEq

/-- One persisted record: ordered field-name/value pairs. -/
abbrev Record := List (String × Prim)

/-- The character `{` (0x7B). -/
def lbrace : Char := Char.ofNat 123

/-- The character `}` (0x7D). -/
def rbrace : Char := Char.ofNat 125

/-- `json.dump` escaping of one character with `ensure_ascii=False`:
quote, backslash and the common control characters get two-character
escapes; every other character — non-ASCII included — is written
verbatim. -/
def escapeChar (c : Char) : List Char :=
  if c = '\"' then ['\\', '\"']
  else if c = '\\' then ['\\', '\\']
  else if c = '\n' then ['\\', 'n']
  else if c = '\t' then ['\\', 't']
  else if c = '\r' then ['\\', 'r']
  else [c]

/-- Escape a whole string body. -/
def escapeStr : List Char → List Char
  | [] => []
  | c :: cs => escapeChar c ++ escapeStr cs

/-- Characters our writer handles exactly as `json.dump` does: everything
except the rare control characters that Python would write as `\uXXXX`. -/
def goodChar (c : Char) : Bool :=
  32 ≤ c.toNat || c = '\n' || c = '\t' || c = '\r'

/-- Decimal digits of `n`, most significant first, by fuelled division;
`fuel` bounds the loop and any `fuel > n` is enough. -/
def serNatAux : Nat → Nat → List Char → List Char
  | 0, _, acc => acc
  | fuel + 1, n, acc =>
    let acc2 := Char.ofNat (48 + n % 10) :: acc
    if n < 10 then acc2 else serNatAux fuel (n / 10) acc2

/-- Decimal text of a natural number. -/
def serNat (n : Nat) : List Char :=
  serNatAux (n + 1) n []

/-- Text of an integer as `json.dump` writes it. -/
def serInt (n : Int) : List Char :=
  if n < 0 then '-' :: serNat n.natAbs else serNat n.toNat

/-- Text of a scalar value. -/
def serPrim : Prim → List Char
  | .pstr s => '\"' :: (escapeStr s.data ++ ['\"'])
  | .pint n => serInt n
  | .pnull => ['n', 'u', 'l', 'l']

/-- Four-space indent unit (`indent=4`). -/
def ind4 : List Char := [' ', ' ', ' ', ' ']

/-- Two indent levels (object members inside the top-level array). -/
def ind8 : List Char := ind4 ++ ind4

/-- A quoted, escaped field name. -/
def serKey (k : String) : List Char :=
  '\"' :: (escapeStr k.data ++ ['\"'])

/-- One `"name": value` member at member indentation. -/
def serMember (m : String × Prim) : List Char :=
  ind8 ++ serKey m.1 ++ ':' :: ' ' :: serPrim m.2

/-- Second and later members, each preceded by `,` and a newline. -/
def serMembersRest : Record → List Char
  | [] => []
  | m :: ms => ',' :: '\n' :: (serMember m ++ serMembersRest ms)

/-- One record as `json.dump` writes a dict nested in the array:  `{}`
when empty, else members on their own lines with the closing brace at
element indentation. -/
def serRecord (r : Record) : List Char :=
  match r with
  | [] => [lbrace, rbrace]
  | m :: ms =>
    lbrace :: '\n' :: (serMember m ++ serMembersRest ms ++ '\n' :: (ind4 ++ [rbrace]))

/-- Second and later records of the array. -/
def serRecsRest : List Record → List Char
  | [] => []
  | r :: rs => ',' :: '\n' :: (ind4 ++ serRecord r ++ serRecsRest rs)

/-- The full document text `json.dump(records, f, ensure_ascii=False,
indent=4)` produces:  `[]` when empty, else one record per element line
with the closing bracket at column zero. -/
def dumpRecords (rs : List Record) : List Char :=
  match rs with
  | [] => ['[', ']']
  | r :: rest => '[' :: '\n' :: (ind4 ++ serRecord r ++ serRecsRest rest ++ ['\n', ']'])

/-- JSON insignificant whitespace. -/
def isWsChar (c : Char) : Bool :=
  c = ' ' || c = '\n' || c = '\t' || c = '\r'

/-- Drop leading whitespace, as `json.load` does between tokens. -/
def skipWs : List Char → List Char
  | [] => []
  | c :: cs => if isWsChar c then skipWs cs else c :: cs

/-- Reverse of `escapeChar` on the character after a backslash; the
`\uXXXX` form never occurs in this writer's output. -/
def unescapeChar (c : Char) : Option Char :=
  if c = '\"' then some '\"'
  else if c = '\\' then some '\\'
  else if c = '/' then some '/'
  else if c = 'n' then some '\n'
  else if c = 't' then some '\t'
  else if c = 'r' then some '\r'
  else if c = 'b' then some (Char.ofNat 8)
  else if c = 'f' then some (Char.ofNat 12)
  else none

/-- Parse a string body up to its closing quote, translating escapes;
returns the body and the text after the quote. -/
def parseStrBody : List Char → Option (List Char × List Char)
  | [] => none
  | c :: cs =>
    if c = '\"' then some ([], cs)
    else if c = '\\' then
      match cs with
      | [] => none
      | e :: cs2 =>
        (unescapeChar e).bind fun d =>
          (parseStrBody cs2).map fun sr => (d :: sr.1, sr.2)
    else (parseStrBody cs).map fun sr => (c :: sr.1, sr.2)

/-- Consume leading decimal digits, accumulating their value. -/
def parseDigits : List Char → Nat → Nat × List Char
  | [], acc => (acc, [])
  | c :: cs, acc =>
    if c.isDigit then parseDigits cs (acc * 10 + (c.toNat - 48)) else (acc, c :: cs)

/-- Whether the text starts with a decimal digit. -/
def headDigit : List Char → Bool
  | [] => false
  | c :: _ => c.isDigit

/-- Parse one scalar JSON value (string, integer, or `null`). -/
def parsePrim (l : List Char) : Option (Prim × List Char) :=
  match l with
  | [] => none
  | c :: cs =>
    if c = '\"' then
      (parseStrBody cs).map fun sr => (.pstr (String.mk sr.1), sr.2)
    else if c = '-' then
      if headDigit cs then
        some (.pint (-((parseDigits cs 0).1 : Int)), (parseDigits cs 0).2)
      else none
    else if c.isDigit then
      some (.pint (((parseDigits (c :: cs) 0).1 : Nat) : Int), (parseDigits (c :: cs) 0).2)
    else if c = 'n' then
      match cs with
      | 'u' :: 'l' :: 'l' :: rest => some (.pnull, rest)
      | _ => none
    else none

/-- Parse one `"name": value` member (leading whitespace allowed). -/
def parseMember (l : List Char) : Option ((String × Prim) × List Char) :=
  match skipWs l with
  | [] => none
  | c :: cs =>
    if c = '\"' then
      match parseStrBody cs with
      | none => none
      | some (k, r1) =>
        match skipWs r1 with
        | ':' :: r3 =>
          match parsePrim (skipWs r3) with
          | none => none
          | some (v, r4) => some ((String.mk k, v), r4)
        | _ => none
    else none

/-- Parse the members after the first one: a `,` continues with another
member, a `}` ends the record.  `fuel` bounds the loop. -/
def parseMembersRest : Nat → List Char → Option (Record × List Char)
  | 0, _ => none
  | fuel + 1, l =>
    match skipWs l with
    | [] => none
    | c :: cs =>
      if c = rbrace then some ([], cs)
      else if c = ',' then
        match parseMember cs with
        | none => none
        | some (m, r) =>
          match parseMembersRest fuel r with
          | none => none
          | some (ms, r2) => some (m :: ms, r2)
      else none

/-- Parse one record: `{`, an optional member list, `}`. -/
def parseRecord (fuel : Nat) (l : List Char) : Option (Record × List Char) :=
  match skipWs l with
  | [] => none
  | c :: cs =>
    if c = lbrace then
      match skipWs cs with
      | [] => none
      | c2 :: cs2 =>
        if c2 = rbrace then some ([], cs2)
        else
          match parseMember cs with
          | none => none
          | some (m, r) =>
            match parseMembersRest fuel r with
            | none => none
            | some (ms, r2) => some (m :: ms, r2)
    else none

/-- Parse the records after the first one: a `,` continues, a `]` ends
the document. -/
def parseRecsRest : Nat → List Char → Option (List Record × List Char)
  | 0, _ => none
  | fuel + 1, l =>
    match skipWs l with
    | [] => none
    | c :: cs =>
      if c = ']' then some ([], cs)
      else if c = ',' then
        match parseRecord fuel cs with
        | none => none
        | some (r, rest) =>
          match parseRecsRest fuel rest with
          | none => none
          | some (rs, r2) => some (r :: rs, r2)
      else none

/-- `json.load` on a persisted document: a `[` then records to the
matching `]`, with nothing but whitespace after. -/
def loadRecords (l : List Char) : Option (List Record) :=
  match skipWs l with
  | [] => none
  | c :: cs =>
    if c = '[' then
      match skipWs cs with
      | [] => none
      | c2 :: cs2 =>
        if c2 = ']' then
          if (skipWs cs2).isEmpty then some [] else none
        else
          match parseRecord (l.length + 1) cs with
          | none => none
          | some (r, rest) =>
            match parseRecsRest (l.length + 1) rest with
            | none => none
            | some (rs, r2) =>
              if (skipWs r2).isEmpty then some (r :: rs) else none
    else none

/-- Every character of every string in the document is one the writer
escapes exactly as `json.dump` does. -/
def goodPrim : Prim → Bool
  | .pstr s => s.data.all goodChar
  | _ => true

/-- Well-formedness of one record for the writer. -/
def goodRecord (r : Record) : Bool :=
  r.all fun m => m.1.data.all goodChar && goodPrim m.2

/-- Well-formedness of a whole document. -/
def goodDoc (rs : List Record) : Bool :=
  rs.all goodRecord

/-! ## Concrete inputs used by witnesses and counterexamples -/

/-- Five entity objects, each carrying the expected key fields. -/
def sampleEntities : List Json :=
  [.obj [("name", .str "Fireball"), ("source", .str "PHB")],
   .obj [("name", .str "Mage Hand"), ("source", .str "PHB")],
   .obj [("name", .str "Wish"), ("source", .str "PHB")],
   .obj [("name", .str "Shield"), ("source", .str "PHB")],
   .obj [("name", .str "Fly"), ("source", .str "PHB")]]

/-- Keys for a dict-of-entities document over `sampleEntities`. -/
def sampleKeys : List String := ["k1", "k2", "k3", "k4", "k5"]

/-- A run whose browser strategy yields one record and whose writes all
succeed. -/
def c1Env : RunEnv :=
  { spell := { browserData := [.obj [("name", .str "Fireball"), ("source", .str "PHB")]],
               fetchOutcomes := [], writeOk := true },
    manualWriteOk := true }

/-- Three records for limit-truncation witnesses. -/
def threeRecords : List Json :=
  [.obj [("name", .str "Aid"), ("source", .str "PHB")],
   .obj [("name", .str "Bane"), ("source", .str "PHB")],
   .obj [("name", .str "Calm"), ("source", .str "PHB")]]

/-- Spell-run environment whose browser strategy yields `threeRecords`. -/
def c3SpellEnv : SpellEnv :=
  { browserData := threeRecords, fetchOutcomes := [], writeOk := true }

/-- Bestiary environment whose extraction yields `threeRecords` and where
every wait succeeds. -/
def c3BestEnv : BestiaryEnv :=
  { loadOk := true,
    scriptWaits := [("js/parser.js", true), ("js/utils.js", true),
                    ("lib/jquery.js", true), ("js/utils-ui.js", true),
                    ("js/bestiary.js", true)],
    domLoadOk := true, keyObjsOk := true,
    monsterData := threeRecords, writeOk := true }

/-- A run in which both automated strategies come back empty. -/
def c4Env : RunEnv :=
  { spell := { browserData := [],
               fetchOutcomes := [.fetchError, .parseError, .httpError],
               writeOk := true },
    manualWriteOk := true }

/-- Two failing candidates: a parse failure and a parsed document that
normalizes to nothing. -/
def c5Pre : List EndpointOutcome := [.parseError, .parsed (.obj [])]

/-- The records served by the first succeeding candidate. -/
def c5Data : List Json := [.obj [("name", .str "Shield"), ("source", .str "PHB")]]

/-- The first candidate that yields records. -/
def c5Hit : EndpointOutcome := .parsed (.arr c5Data)

/-- A later candidate that is never tried. -/
def c5Post : List EndpointOutcome := [.fetchError]

/-- A DOM row whose sub-elements are almost all missing. -/
def c6Row : DomRow :=
  { nameText := none, sourceText := some " PHB ", levelText := none,
    timeText := none, schoolClassName := some "sc_V", rangeText := none,
    classesText := none }

/-- A spell-scraper readiness environment where the first script wait
times out and the later key-object wait also times out. -/
def c7SpellWaitEnv : ScriptWaitEnv :=
  { scriptWaits := [("js/parser.js", false), ("js/utils.js", true),
                    ("lib/jquery.js", true), ("js/utils-ui.js", true),
                    ("js/spells.js", true)],
    domLoadOk := true, evalOk := true, screenshotOk := true,
    jQueryDefined := false, parserDefined := true, keyObjsOk := false }

/-- A bestiary environment where only the first script wait times out. -/
def c7Benv : BestiaryEnv :=
  { loadOk := true,
    scriptWaits := [("js/parser.js", false), ("js/utils.js", true),
                    ("lib/jquery.js", true), ("js/utils-ui.js", true),
                    ("js/bestiary.js", true)],
    domLoadOk := true, keyObjsOk := true, monsterData := [], writeOk := true }

/-- A run with empty strategies and successful artifact writes. -/
def c9Env : RunEnv :=
  { spell := { browserData := [], fetchOutcomes := [], writeOk := true },
    manualWriteOk := true }

/-- One record, for the zero-limit witnesses. -/
def c10Data : List Json := [.obj [("name", .str "Wish"), ("source", .str "PHB")]]

/-- Spell-run environment whose browser strategy yields `c10Data`. -/
def c10SpellEnv : SpellEnv :=
  { browserData := c10Data, fetchOutcomes := [], writeOk := true }

/-- Bestiary environment whose extraction yields `c10Data`. -/
def c10BestEnv : BestiaryEnv :=
  { loadOk := true,
    scriptWaits := [("js/parser.js", true), ("js/utils.js", true),
                    ("lib/jquery.js", true), ("js/utils-ui.js", true),
                    ("js/bestiary.js", true)],
    domLoadOk := true, keyObjsOk := true,
    monsterData := c10Data, writeOk := true }

/-- A document with a non-ASCII string, a number and an absent value,
followed by an empty record. -/
def c8SampleDoc : List Record :=
  [[("name", .pstr "Éclair de feu"), ("page", .pint 241), ("meta", .pnull)], []]

/-- The `scrape_spells` effects when both strategies are empty. -/
def emptyScrapeOut : SpellScrapeOut := { fetchAttempted := true, dataFile := none }

/-- The `run` effects when both strategies are empty and the manual
artifacts are written. -/
def fallbackRunOut : RunOut :=
  { fetchAttempted := true, dataFile := none, readOutputFile := false,
    manualEmitted := true, manualFiles := manualArtifactPaths }

/-! ## Helper lemmas -/

theorem spellSelect_nil (L : Option Int) : spellSelect L ([] : List α) = [] := by
  cases L with
  | none => rfl
  | some n =>
    simp only [spellSelect]
    split <;> simp [pySliceTo]

theorem directFetch_skip_empty (pre rest : List EndpointOutcome)
    (h : ∀ p ∈ pre, endpointYield p = []) :
    directFetchLoop (pre ++ rest) [] = directFetchLoop rest [] := by
  induction pre with
  | nil => rfl
  | cons p pre ih =>
    have hp : endpointYield p = [] := h p (List.mem_cons_self p pre)
    have hpre : ∀ q ∈ pre, endpointYield q = [] :=
      fun q hq => h q (List.mem_cons_of_mem p hq)
    cases p with
    | parsed j =>
      cases hs : endpointSpells j with
      | some s =>
        have hsnil : s = [] := by
          simpa [endpointYield, hs] using hp
        subst hsnil
        simpa [directFetchLoop, hs] using ih hpre
      | none => simpa [directFetchLoop, hs] using ih hpre
    | fetchError => simpa [directFetchLoop] using ih hpre
    | httpError => simpa [directFetchLoop] using ih hpre
    | wrongContentType => simpa [directFetchLoop] using ih hpre
    | parseError => simpa [directFetchLoop] using ih hpre

theorem lookup_zip_eq_none {β : Type} (k : String) :
    ∀ (ks : List String) (es : List β), k ∉ ks → (ks.zip es).lookup k = none
  | [], _, _ => by simp
  | _ :: _, [], _ => by simp
  | a :: ks, e :: es, h => by
    have hka : k ≠ a := fun he => h (he ▸ List.mem_cons_self a ks)
    have hb : (k == a) = false := beq_eq_false_iff_ne.mpr hka
    have hrec : (ks.zip es).lookup k = none :=
      lookup_zip_eq_none k ks es fun hm => h (List.mem_cons_of_mem a hm)
    simpa [List.lookup, hb] using hrec

theorem filterMap_zip_entities :
    ∀ (ks : List String) (es : List Json), ks.length = es.length →
      (∀ e ∈ es, looksLikeEntity e = true) →
      ((ks.zip es).filterMap fun kv =>
        if looksLikeEntity kv.2 then some kv.2 else none) = es
  | [], [], _, _ => by simp
  | [], _ :: _, hl, _ => by simp at hl
  | _ :: _, [], hl, _ => by simp at hl
  | a :: ks, e :: es, hl, he => by
    have h1 : looksLikeEntity e = true := he e (List.mem_cons_self e es)
    have h2 : ∀ x ∈ es, looksLikeEntity x = true :=
      fun x hx => he x (List.mem_cons_of_mem e hx)
    have hl2 : ks.length = es.length := by simpa using hl
    simp [h1, filterMap_zip_entities ks es hl2 h2]

theorem mem_scriptLoopWarnings (s : String) :
    ∀ ws : List (String × Bool), (s, false) ∈ ws →
      ("Could not find script " ++ s) ∈ scriptLoopWarnings ws
  | [], h => by simp at h
  | (t, ok) :: rest, h => by
    rcases List.mem_cons.mp h with h1 | h2
    · cases h1
      simp [scriptLoopWarnings]
    · have := mem_scriptLoopWarnings s rest h2
      cases ok <;> simp [scriptLoopWarnings, this]

theorem allScriptsFound_false (s : String) :
    ∀ ws : List (String × Bool), (s, false) ∈ ws → allScriptsFound ws = false
  | [], h => by simp at h
  | (t, ok) :: rest, h => by
    rcases List.mem_cons.mp h with h1 | h2
    · cases h1
      simp [allScriptsFound]
    · simp [allScriptsFound, allScriptsFound_false s rest h2]

theorem scrape_spells_eq (env : SpellEnv) (L : Option Int) :
    scrape_spells env L =
      (let data2 := spellSelect L (strategyData env)
       if data2.isEmpty then
         .ok ({ fetchAttempted := env.browserData.isEmpty, dataFile := none }, .vNone)
       else if env.writeOk then
         .ok ({ fetchAttempted := env.browserData.isEmpty, dataFile := some data2 }, .vNone)
       else .error "OSError writing spells.json") := rfl

/-! ## Claim theorems -/

/-- C5: the direct-fetch strategy tries its candidates in order; every
candidate that fails (unreachable, bad response, unparseable) or yields
no records is passed over, the first candidate yielding a non-empty
record sequence determines the whole result with the later candidates
untried, and a prefix in which every candidate is exhausted yields the
empty sequence. -/
theorem c5_direct_fetch_candidate_order (pre : List EndpointOutcome)
    (o : EndpointOutcome) (post : List EndpointOutcome)
    (hpre : ∀ p ∈ pre, endpointYield p = [])
    (ho : endpointYield o ≠ []) :
    direct_json_fetch (pre ++ o :: post) = endpointYield o ∧
    direct_json_fetch pre = [] := by
  constructor
  · show directFetchLoop (pre ++ o :: post) [] = endpointYield o
    rw [directFetch_skip_empty pre (o :: post) hpre]
    cases o with
    | parsed j =>
      cases hs : endpointSpells j with
      | some s =>
        have hyield : endpointYield (.parsed j) = s := by simp [endpointYield, hs]
        have hsne : s.isEmpty = false := by
          rw [hyield] at ho
          simpa [List.isEmpty_iff] using ho
        rw [hyield]
        simp [directFetchLoop, hs, hsne]
      | none => exact absurd (by simp [endpointYield, hs]) ho
    | fetchError => exact absurd rfl ho
    | httpError => exact absurd rfl ho
    | wrongContentType => exact absurd rfl ho
    | parseError => exact absurd rfl ho
  · have h2 := directFetch_skip_empty pre [] hpre
    rw [List.append_nil] at h2
    exact h2

/-- Witness for C5: a parse failure and an empty-yield candidate are
skipped, the third candidate's records are returned, the fourth is
untried; the failing prefix alone yields nothing. -/
theorem c5_direct_fetch_candidate_order_witness :
    direct_json_fetch (c5Pre ++ c5Hit :: c5Post) = endpointYield c5Hit ∧
    direct_json_fetch c5Pre = [] :=
  c5_direct_fetch_candidate_order c5Pre c5Hit c5Post
    (by
      intro p hp
      simp only [c5Pre, List.mem_cons, List.not_mem_nil, or_false] at hp
      rcases hp with h | h <;> subst h <;> rfl)
    (by simp [c5Hit, c5Data, endpointYield, endpointSpells])

/-- C2 counterexample: a wrapping object whose single key is `"items"`
(the key the spec's scenario uses) holding 5 entities normalizes to no
records at all — the strategy's known wrapping keys are only `"spell"`
and `"spells"` — so the run of the scenario (candidate #1 failing,
candidate #2 returning that object, candidate #3 failing) returns the
empty sequence, not the 5 records. -/
theorem c2_items_key_yields_nothing :
    sampleEntities.length = 5 ∧
    direct_json_fetch [.parsed (.obj [("items", .arr sampleEntities)])] = [] ∧
    direct_json_fetch
      [.httpError, .parsed (.obj [("items", .arr sampleEntities)]), .fetchError] = [] :=
  ⟨rfl, rfl, rfl⟩

/-- C2 (amended): for a wrapping object whose single known key —
`"spell"` or `"spells"` — holds a list of entities, the direct-fetch
strategy returns exactly those records (in the spec's scenario shape:
candidate #1 failing, candidate #2 wrapping, candidate #3 ignored); a
direct list of the same entities and a dict whose values individually
carry the expected key fields normalize to the same record sequence. -/
theorem c2_known_shapes_normalize (es : List Json) (ks : List String)
    (hent : ∀ e ∈ es, looksLikeEntity e = true)
    (hlen : ks.length = es.length)
    (hk1 : "spell" ∉ ks) (hk2 : "spells" ∉ ks) :
    direct_json_fetch [.parsed (.arr es)] = es ∧
    direct_json_fetch
      [.httpError, .parsed (.obj [("spell", .arr es)]), .fetchError] = es ∧
    direct_json_fetch [.parsed (.obj [("spells", .arr es)])] = es ∧
    direct_json_fetch [.parsed (.obj (ks.zip es))] = es := by
  refine ⟨?_, ?_, ?_, ?_⟩
  · show directFetchLoop [.parsed (.arr es)] [] = es
    simp [directFetchLoop, endpointSpells]
  · show directFetchLoop
      [.httpError, .parsed (.obj [("spell", .arr es)]), .fetchError] [] = es
    simp [directFetchLoop, endpointSpells, List.lookup, pyIter]
  · show directFetchLoop [.parsed (.obj [("spells", .arr es)])] [] = es
    simp [directFetchLoop, endpointSpells, List.lookup, pyIter]
  · show directFetchLoop [.parsed (.obj (ks.zip es))] [] = es
    have hl1 : (ks.zip es).lookup "spell" = none := lookup_zip_eq_none _ ks es hk1
    have hl2 : (ks.zip es).lookup "spells" = none := lookup_zip_eq_none _ ks es hk2
    have hfm := filterMap_zip_entities ks es hlen hent
    simp [directFetchLoop, endpointSpells, hl1, hl2, hfm]

/-- Witness for C2 (amended): the three shapes over `sampleEntities`
(5 entities) normalize to the same 5-record sequence. -/
theorem c2_known_shapes_normalize_witness :
    direct_json_fetch [.parsed (.arr sampleEntities)] = sampleEntities ∧
    direct_json_fetch
      [.httpError, .parsed (.obj [("spell", .arr sampleEntities)]), .fetchError] =
      sampleEntities ∧
    direct_json_fetch [.parsed (.obj [("spells", .arr sampleEntities)])] =
      sampleEntities ∧
    direct_json_fetch [.parsed (.obj (sampleKeys.zip sampleEntities))] =
      sampleEntities :=
  c2_known_shapes_normalize sampleEntities sampleKeys
    (by
      intro e he
      simp only [sampleEntities, List.mem_cons, List.not_mem_nil, or_false] at he
      rcases he with h | h | h | h | h <;> subst h <;> rfl)
    rfl
    (by simp [sampleKeys])
    (by simp [sampleKeys])


/-- C3: with a configured limit N and a strategy output of M ≥ N > 0
records, both scrapers persist exactly the first N records unmodified;
with the limit unset both persist the full strategy output; and the
spell scraper's truncation is a final step applied to the
limit-independent strategy output (`strategyData` takes no limit
parameter, so extraction cannot depend on it). -/
theorem c3_limit_is_final_truncation (data : List Json) (N : Int)
    (env : SpellEnv) (benv : BestiaryEnv)
    (hb : env.browserData = data) (hw : env.writeOk = true)
    (hm : benv.monsterData = data) (hl : benv.loadOk = true)
    (hscripts : BestiaryScraper.wait_for_critical_scripts benv = .ok ())
    (hbw : benv.writeOk = true)
    (h1 : 0 < N) (h2 : N ≤ (data.length : Int)) :
    scrape_spells env (some N) =
      .ok ({ fetchAttempted := false, dataFile := some (data.take N.toNat) }, .vNone) ∧
    BestiaryScraper.scrape_monsters benv (some N) = .ok (some (data.take N.toNat)) ∧
    scrape_spells env none =
      .ok ({ fetchAttempted := false, dataFile := some data }, .vNone) ∧
    BestiaryScraper.scrape_monsters benv none = .ok (some data) ∧
    spellSelect (some N) (strategyData env) = (strategyData env).take N.toNat := by
  have hlen : 0 < data.length := by
    have h0 : (0 : Int) < (data.length : Int) := lt_of_lt_of_le h1 h2
    exact_mod_cast h0
  have hne : data ≠ [] := List.length_pos.mp hlen
  have hbe : env.browserData.isEmpty = false := by
    rw [hb]
    simpa [List.isEmpty_iff] using hne
  have hsd : strategyData env = data := by
    unfold strategyData
    rw [hbe]
    simpa using hb
  have hsel : spellSelect (some N) data = data.take N.toNat := by
    simp only [spellSelect, pySliceTo]
    by_cases hgt : (data.length : Int) > N
    · have hN0 : N ≠ 0 := by omega
      rw [if_pos ⟨hN0, hgt⟩, if_pos h1.le]
    · have hNt : data.length ≤ N.toNat := by omega
      rw [if_neg (by tauto), (List.take_of_length_le hNt)]
  have htake : (data.take N.toNat).isEmpty = false := by
    have hN1 : N.toNat ≠ 0 := by omega
    have : data.take N.toNat ≠ [] := by
      simp [List.take_eq_nil_iff, hN1, hne]
    simpa [List.isEmpty_iff] using this
  have hdata : data.isEmpty = false := by simpa [List.isEmpty_iff] using hne
  refine ⟨?_, ?_, ?_, ?_, ?_⟩
  · rw [scrape_spells_eq]
    simp [hsd, hsel, htake, hw, hbe]
  · have hmonsel : monsterSelect (some N) data = data.take N.toNat := by
      simp only [monsterSelect, pySliceTo]
      rw [if_pos (by omega : N ≠ 0), if_pos h1.le]
    simp [BestiaryScraper.scrape_monsters, hl, hscripts, hbw, hm, hmonsel]
  · rw [scrape_spells_eq]
    simp [hsd, spellSelect, hdata, hw, hbe]
  · simp [BestiaryScraper.scrape_monsters, hl, hscripts, hbw, hm, monsterSelect]
  · rw [hsd, hsel]

/-- Witness for C3: three records, limit 2 — the first two are
persisted; with no limit all three are. -/
theorem c3_limit_is_final_truncation_witness :
    scrape_spells c3SpellEnv (some 2) =
      .ok ({ fetchAttempted := false,
             dataFile := some (threeRecords.take (2 : Int).toNat) }, .vNone) ∧
    BestiaryScraper.scrape_monsters c3BestEnv (some 2) =
      .ok (some (threeRecords.take (2 : Int).toNat)) ∧
    scrape_spells c3SpellEnv none =
      .ok ({ fetchAttempted := false, dataFile := some threeRecords }, .vNone) ∧
    BestiaryScraper.scrape_monsters c3BestEnv none = .ok (some threeRecords) ∧
    spellSelect (some 2) (strategyData c3SpellEnv) =
      (strategyData c3SpellEnv).take (2 : Int).toNat :=
  c3_limit_is_final_truncation threeRecords 2 c3SpellEnv c3BestEnv
    rfl rfl rfl rfl rfl rfl (by decide) (by decide)

/-- C10: a limit of 0 is treated as no limit by both scrapers (the
truncation guards test Python truthiness), and the runner converts a
limit environment value that is empty or not all digits to `None`. -/
theorem c10_zero_limit_means_no_limit (data : List Json)
    (env : SpellEnv) (benv : BestiaryEnv) (s : String)
    (hb : env.browserData = data) (hw : env.writeOk = true)
    (hm : benv.monsterData = data) (hl : benv.loadOk = true)
    (hscripts : BestiaryScraper.wait_for_critical_scripts benv = .ok ())
    (hbw : benv.writeOk = true)
    (hne : data ≠ [])
    (hs : ¬(s ≠ "" ∧ s.data.all Char.isDigit)) :
    scrape_spells env (some 0) =
      .ok ({ fetchAttempted := false, dataFile := some data }, .vNone) ∧
    BestiaryScraper.scrape_monsters benv (some 0) = .ok (some data) ∧
    parseLimitEnv (some s) = none := by
  have hbe : env.browserData.isEmpty = false := by
    rw [hb]
    simpa [List.isEmpty_iff] using hne
  have hdata : data.isEmpty = false := by simpa [List.isEmpty_iff] using hne
  have hsd : strategyData env = data := by
    unfold strategyData
    rw [hbe]
    simpa using hb
  refine ⟨?_, ?_, ?_⟩
  · rw [scrape_spells_eq]
    simp [hsd, spellSelect, hdata, hw, hbe]
  · simp [BestiaryScraper.scrape_monsters, hl, hscripts, hbw, hm, monsterSelect]
  · show (if s ≠ "" ∧ s.data.all Char.isDigit then some ((pyStrToNat s : Nat) : Int) else none) = none
    rw [if_neg hs]

/-- Witness for C10: one record survives a limit of 0 unmodified in both
scrapers, and the value `"abc"` parses to no limit. -/
theorem c10_zero_limit_means_no_limit_witness :
    scrape_spells c10SpellEnv (some 0) =
      .ok ({ fetchAttempted := false, dataFile := some c10Data }, .vNone) ∧
    BestiaryScraper.scrape_monsters c10BestEnv (some 0) = .ok (some c10Data) ∧
    parseLimitEnv (some "abc") = none :=
  c10_zero_limit_means_no_limit c10Data c10SpellEnv c10BestEnv "abc"
    rfl rfl rfl rfl rfl rfl (by simp [c10Data]) (by decide)

/-- C4: when the browser strategy yields zero records the direct-fetch
strategy is attempted, and when that also yields zero records a
non-raising run writes no data file and produces the manual-fallback
artifacts (the extraction script and the README under the manual
subpath). -/
theorem c4_empty_strategies_manual_fallback (env : RunEnv) (limit : Option Int)
    (out : SpellScrapeOut) (v : PyVal) (r : RunOut)
    (hb : env.spell.browserData = [])
    (hsc : scrape_spells env.spell limit = .ok (out, v))
    (hf : direct_json_fetch env.spell.fetchOutcomes = [])
    (hr : SpellScraper.run env limit = .ok r) :
    out.fetchAttempted = true ∧ out.dataFile = none ∧ r.dataFile = none ∧
    r.manualEmitted = true ∧ r.manualFiles = manualArtifactPaths := by
  have hsd : strategyData env.spell = [] := by
    unfold strategyData
    rw [hb, hf]
    simp
  have hsc2 : scrape_spells env.spell limit = .ok (emptyScrapeOut, .vNone) := by
    rw [scrape_spells_eq]
    simp [hsd, spellSelect_nil, hb, emptyScrapeOut]
  have hout : emptyScrapeOut = out ∧ PyVal.vNone = v := by
    have hj := Except.ok.inj (hsc2.symm.trans hsc)
    exact ⟨congrArg Prod.fst hj, congrArg Prod.snd hj⟩
  obtain ⟨ho, hv⟩ := hout
  have hrun : SpellScraper.run env limit =
      (if env.manualWriteOk then .ok fallbackRunOut
       else .error "OSError writing manual artifacts") := by
    unfold SpellScraper.run
    rw [hsc2]
    rfl
  rw [hrun] at hr
  cases hmw : env.manualWriteOk
  · rw [hmw] at hr
    simp at hr
  · rw [hmw] at hr
    simp only [if_true] at hr
    have hre := Except.ok.inj hr
    subst hre
    refine ⟨ho ▸ rfl, ho ▸ rfl, rfl, rfl, rfl⟩

/-- Witness for C4: both strategies empty, manual artifacts written. -/
theorem c4_empty_strategies_manual_fallback_witness :
    emptyScrapeOut.fetchAttempted = true ∧ emptyScrapeOut.dataFile = none ∧
    fallbackRunOut.dataFile = none ∧ fallbackRunOut.manualEmitted = true ∧
    fallbackRunOut.manualFiles = manualArtifactPaths :=
  c4_empty_strategies_manual_fallback c4Env none emptyScrapeOut .vNone
    fallbackRunOut rfl rfl rfl rfl

/-- C9: `scrape_spells` always returns `None` (it persists internally and
falls off the end of its body), so in any non-raising `run` the guard
`spells and len(spells) > 0` is falsy, the dead branch that would read
the never-assigned attribute `self.output_file` is not taken — `run`
never raises `AttributeError` — and `run` always proceeds to emit the
manual extraction instructions. -/
theorem c9_scrape_returns_none_run_falls_back (env : RunEnv) (limit : Option Int)
    (out : SpellScrapeOut) (v : PyVal) (r : RunOut)
    (hsc : scrape_spells env.spell limit = .ok (out, v))
    (hr : SpellScraper.run env limit = .ok r) :
    v = .vNone ∧ pyGuardNonEmpty v = false ∧ r.readOutputFile = false ∧
    r.manualEmitted = true ∧ r.manualFiles = manualArtifactPaths ∧
    SpellScraper.run env limit ≠ .error "AttributeError: output_file" := by
  have hv : v = .vNone := by
    rw [scrape_spells_eq] at hsc
    simp only at hsc
    split at hsc
    · exact (congrArg Prod.snd (Except.ok.inj hsc)).symm
    · split at hsc
      · exact (congrArg Prod.snd (Except.ok.inj hsc)).symm
      · exact Except.noConfusion hsc
  subst hv
  have hne : SpellScraper.run env limit ≠ .error "AttributeError: output_file" := by
    rw [hr]
    simp
  have hrun2 : SpellScraper.run env limit =
      (if env.manualWriteOk then
        .ok { fetchAttempted := out.fetchAttempted, dataFile := out.dataFile,
              readOutputFile := false, manualEmitted := true,
              manualFiles := manualArtifactPaths }
       else .error "OSError writing manual artifacts") := by
    unfold SpellScraper.run
    rw [hsc]
    rfl
  have hrw := hrun2.symm.trans hr
  cases hmw : env.manualWriteOk
  · rw [hmw] at hrw
    simp only [Bool.false_eq_true, if_false] at hrw
    exact Except.noConfusion hrw
  · rw [hmw] at hrw
    simp only [if_true] at hrw
    have hre := Except.ok.inj hrw
    subst hre
    exact ⟨rfl, rfl, rfl, rfl, rfl, hne⟩

/-- Witness for C9: both strategies empty, run completes with the manual
artifacts emitted and the output-file branch untaken. -/
theorem c9_scrape_returns_none_run_falls_back_witness :
    PyVal.vNone = PyVal.vNone ∧ pyGuardNonEmpty .vNone = false ∧
    fallbackRunOut.readOutputFile = false ∧
    fallbackRunOut.manualEmitted = true ∧
    fallbackRunOut.manualFiles = manualArtifactPaths ∧
    SpellScraper.run c9Env none ≠ .error "AttributeError: output_file" :=
  c9_scrape_returns_none_run_falls_back c9Env none emptyScrapeOut .vNone
    fallbackRunOut rfl rfl

/-- C1 (code bug): the spec requires manual-fallback artifacts only when
both automated strategies return empty, but because `scrape_spells`
returns `None`, `run` emits them on every non-raising run — here the
browser strategy yields one record, the data file is persisted, and the
manual artifacts are still produced. -/
theorem c1_manual_fallback_emitted_despite_records :
    c1Env.spell.browserData ≠ [] ∧
    SpellScraper.run c1Env none =
      .ok { fetchAttempted := false, dataFile := some c1Env.spell.browserData,
            readOutputFile := false, manualEmitted := true,
            manualFiles := manualArtifactPaths } :=
  ⟨fun h => by simp [c1Env] at h, rfl⟩

/-- C6: whenever the global `spellList` is undefined, null, or empty, the
in-page extraction falls to the DOM tier, which maps every found row —
none skipped — and substitutes an empty value for any missing
sub-element (`domText none` and `schoolFromClass none` are `""`). -/
theorem c6_dom_fallback_attempted (sl : JsVar) (rows : List DomRow)
    (hsl : ∀ xs, sl = JsVar.arr xs → xs = []) :
    extract_spell_data sl rows = rows.map extractRowDom ∧
    (extract_spell_data sl rows).length = rows.length ∧
    domText none = "" ∧ schoolFromClass none = "" := by
  have h1 : extract_spell_data sl rows = rows.map extractRowDom := by
    have hdom : domTierSpells rows = rows.map extractRowDom := by
      unfold domTierSpells
      cases rows <;> simp
    cases sl with
    | undef => exact hdom
    | jsNull => exact hdom
    | arr xs =>
      have hx := hsl xs rfl
      subst hx
      exact hdom
  exact ⟨h1, by rw [h1]; simp, rfl, rfl⟩

/-- Witness for C6: a null `spellList` and one row with almost every
sub-element missing. -/
theorem c6_dom_fallback_attempted_witness :
    extract_spell_data JsVar.jsNull [c6Row] = [c6Row].map extractRowDom ∧
    (extract_spell_data JsVar.jsNull [c6Row]).length = [c6Row].length ∧
    domText none = "" ∧ schoolFromClass none = "" :=
  c6_dom_fallback_attempted JsVar.jsNull [c6Row] (fun _ h => nomatch h)

/-- C7 (amended): in the spell scraper's readiness step a script whose
bounded wait times out is logged as a warning and execution continues —
no exception ever propagates out of the step.  (The bestiary scraper's
readiness step instead re-raises; see the counterexample.) -/
theorem c7_spell_readiness_never_aborts (env : ScriptWaitEnv) (s : String)
    (hmiss : (s, false) ∈ env.scriptWaits) :
    (SpellScraper.wait_for_critical_scripts env).raised = false ∧
    ("Could not find script " ++ s) ∈
      (SpellScraper.wait_for_critical_scripts env).warnings := by
  have hin := mem_scriptLoopWarnings s env.scriptWaits hmiss
  have haf := allScriptsFound_false s env.scriptWaits hmiss
  constructor
  · simp only [SpellScraper.wait_for_critical_scripts, haf]
    split_ifs <;> rfl
  · simp only [SpellScraper.wait_for_critical_scripts, haf]
    split_ifs <;> simp [hin]

/-- Witness for C7 (amended): the wait for `js/parser.js` times out; the
step returns normally with the warning logged. -/
theorem c7_spell_readiness_never_aborts_witness :
    (SpellScraper.wait_for_critical_scripts c7SpellWaitEnv).raised = false ∧
    ("Could not find script " ++ "js/parser.js") ∈
      (SpellScraper.wait_for_critical_scripts c7SpellWaitEnv).warnings :=
  c7_spell_readiness_never_aborts c7SpellWaitEnv "js/parser.js" (by decide)

/-- C7 counterexample: in the bestiary scraper's readiness step (one of
the claim's two readiness steps) a script-wait timeout propagates an
exception out of the step and aborts the whole run. -/
theorem c7_bestiary_missing_script_aborts :
    BestiaryScraper.wait_for_critical_scripts c7Benv =
      .error "TimeoutError waiting for js/parser.js" ∧
    BestiaryScraper.run c7Benv none =
      .error "TimeoutError waiting for js/parser.js" :=
  ⟨rfl, rfl⟩

theorem serNatAux_fuel : ∀ f1 f2 n acc, n < f1 → n < f2 →
    serNatAux f1 n acc = serNatAux f2 n acc := by
  intro f1
  induction f1 with
  | zero => intro f2 n acc h1 _; exact absurd h1 (Nat.not_lt_zero n)
  | succ f ih =>
    intro f2 n acc h1 h2
    cases f2 with
    | zero => exact absurd h2 (Nat.not_lt_zero n)
    | succ g =>
      simp only [serNatAux]
      by_cases hn : n < 10
      · simp [hn]
      · simp only [hn, if_false]
        have hd : n / 10 < n := Nat.div_lt_self (by omega) (by omega)
        exact ih g (n / 10) _ (by omega) (by omega)

theorem serNatAux_out : ∀ f n acc, serNatAux f n acc = serNatAux f n [] ++ acc := by
  intro f
  induction f with
  | zero => intro n acc; simp [serNatAux]
  | succ f ih =>
    intro n acc
    simp only [serNatAux]
    by_cases hn : n < 10
    · simp [hn]
    · simp only [hn, if_false]
      rw [ih (n / 10) (Char.ofNat (48 + n % 10) :: acc),
          ih (n / 10) [Char.ofNat (48 + n % 10)]]
      simp

theorem serNat_small (n : Nat) (h : n < 10) : serNat n = [Char.ofNat (48 + n)] := by
  unfold serNat serNatAux
  simp [h, Nat.mod_eq_of_lt h]

theorem serNat_cons (n : Nat) (h : 10 ≤ n) :
    serNat n = serNat (n / 10) ++ [Char.ofNat (48 + n % 10)] := by
  have hd : n / 10 < n := Nat.div_lt_self (by omega) (by omega)
  unfold serNat
  rw [show serNatAux (n + 1) n [] = serNatAux n (n / 10) [Char.ofNat (48 + n % 10)] by
    simp [serNatAux, Nat.not_lt.mpr h]]
  rw [serNatAux_out n (n / 10) [Char.ofNat (48 + n % 10)]]
  congr 1
  exact serNatAux_fuel n (n / 10 + 1) (n / 10) [] hd (Nat.lt_succ_self _)

theorem digitChar_facts (d : Nat) (h : d < 10) :
    (Char.ofNat (48 + d)).isDigit = true ∧ (Char.ofNat (48 + d)).toNat = 48 + d := by
  interval_cases d <;> exact ⟨by decide, by decide⟩

theorem serNat_digits : ∀ n, ∀ c ∈ serNat n, c.isDigit = true := by
  intro n
  induction n using Nat.strong_induction_on with
  | _ n ih =>
    by_cases h : n < 10
    · rw [serNat_small n h]
      intro c hc
      simp only [List.mem_singleton] at hc
      subst hc
      exact (digitChar_facts n h).1
    · rw [serNat_cons n (Nat.not_lt.mp h)]
      intro c hc
      rcases List.mem_append.mp hc with h1 | h2
      · exact ih (n / 10) (Nat.div_lt_self (by omega) (by omega)) c h1
      · simp only [List.mem_singleton] at h2
        subst h2
        exact (digitChar_facts (n % 10) (Nat.mod_lt n (by omega))).1

theorem serNat_ne_nil (n : Nat) : serNat n ≠ [] := by
  by_cases h : n < 10
  · rw [serNat_small n h]; simp
  · rw [serNat_cons n (Nat.not_lt.mp h)]; simp

theorem parseDigits_stop (l : List Char) (a : Nat) (h : headDigit l = false) :
    parseDigits l a = (a, l) := by
  cases l with
  | nil => rfl
  | cons c cs =>
    simp only [headDigit] at h
    simp [parseDigits, h]

theorem parseDigits_run : ∀ n, ∀ a rest, parseDigits (serNat n ++ rest) a =
    parseDigits rest (a * 10 ^ (serNat n).length + n) := by
  intro n
  induction n using Nat.strong_induction_on with
  | _ n ih =>
    intro a rest
    by_cases h : n < 10
    · rw [serNat_small n h]
      have hf := digitChar_facts n h
      simp only [List.cons_append, List.nil_append, parseDigits, hf.1, if_true, hf.2,
        List.length_singleton, pow_one]
      congr 1
      omega
    · have h10 := Nat.not_lt.mp h
      have hlen : (serNat n).length = (serNat (n / 10)).length + 1 := by
        rw [serNat_cons n h10]; simp
      rw [serNat_cons n h10, List.append_assoc,
          ih (n / 10) (Nat.div_lt_self (by omega) (by omega)) a _]
      have hf := digitChar_facts (n % 10) (Nat.mod_lt n (by omega))
      simp only [List.cons_append, List.nil_append, parseDigits, hf.1, if_true, hf.2,
        List.length_append, List.length_singleton]
      congr 1
      rw [pow_succ, ← mul_assoc]
      set M := a * 10 ^ (serNat (n / 10)).length with hM
      omega

theorem headDigit_serNat (m : Nat) (rest : List Char) :
    headDigit (serNat m ++ rest) = true := by
  cases hsn : serNat m with
  | nil => exact absurd hsn (serNat_ne_nil m)
  | cons c t =>
    have hd := serNat_digits m c (by rw [hsn]; exact List.mem_cons_self c t)
    simp [headDigit, hd]

theorem parseDigits_serNat (m : Nat) (rest : List Char) (h : headDigit rest = false) :
    parseDigits (serNat m ++ rest) 0 = (m, rest) := by
  rw [parseDigits_run, parseDigits_stop rest _ h]
  norm_num

theorem parseStrBody_escape (s : List Char) (rest : List Char) :
    parseStrBody (escapeStr s ++ '\"' :: rest) = some (s, rest) := by
  induction s with
  | nil =>
    show parseStrBody ('\"' :: rest) = some ([], rest)
    unfold parseStrBody
    rw [if_pos rfl]
  | cons c cs ih =>
    simp only [escapeStr, escapeChar, List.append_assoc]
    split_ifs with h1 h2 h3 h4 h5
    · subst h1; simp [parseStrBody, unescapeChar, ih]
    · subst h2; simp [parseStrBody, unescapeChar, ih]
    · subst h3; simp [parseStrBody, unescapeChar, ih]
    · subst h4; simp [parseStrBody, unescapeChar, ih]
    · subst h5; simp [parseStrBody, unescapeChar, ih]
    · simp only [List.cons_append, List.nil_append]
      unfold parseStrBody
      rw [if_neg h1, if_neg h2, ih]
      rfl

theorem char_ne_of_isDigit (c : Char) (h : c.isDigit = true) :
    c ≠ '\"' ∧ c ≠ '-' ∧ c ≠ 'n' ∧ isWsChar c = false := by
  refine ⟨fun he => absurd h (by subst he; decide),
          fun he => absurd h (by subst he; decide),
          fun he => absurd h (by subst he; decide), ?_⟩
  have h1 : c ≠ ' ' := fun he => absurd h (by subst he; decide)
  have h2 : c ≠ '\n' := fun he => absurd h (by subst he; decide)
  have h3 : c ≠ '\t' := fun he => absurd h (by subst he; decide)
  have h4 : c ≠ '\r' := fun he => absurd h (by subst he; decide)
  simp [isWsChar, h1, h2, h3, h4]

theorem parsePrim_ser (v : Prim) (rest : List Char) (hrest : headDigit rest = false) :
    parsePrim (serPrim v ++ rest) = some (v, rest) := by
  cases v with
  | pstr s =>
    have hmk : String.mk s.data = s := rfl
    simp [serPrim, parsePrim, parseStrBody_escape s.data rest, hmk]
  | pint n =>
    by_cases hn : n < 0
    · have hcast : -((n.natAbs : Nat) : Int) = n := by omega
      simp only [serPrim, serInt, hn, if_true, List.cons_append, parsePrim]
      rw [if_pos (headDigit_serNat n.natAbs rest)]
      simp only [parseDigits_serNat n.natAbs rest hrest]
      rw [hcast, if_neg (show ¬('-' = '\"') by decide)]
    · have hcast : ((n.toNat : Nat) : Int) = n := by omega
      cases hsn : serNat n.toNat with
      | nil => exact absurd hsn (serNat_ne_nil _)
      | cons c t =>
        have hd := serNat_digits n.toNat c (by rw [hsn]; exact List.mem_cons_self c t)
        obtain ⟨hq, hm, _, _⟩ := char_ne_of_isDigit c hd
        have hrw : serPrim (.pint n) ++ rest = c :: (t ++ rest) := by
          simp [serPrim, serInt, hn, hsn]
        rw [hrw]
        simp only [parsePrim]
        rw [if_neg hq, if_neg hm, if_pos hd]
        have hpd : parseDigits (c :: (t ++ rest)) 0 = (n.toNat, rest) := by
          rw [show c :: (t ++ rest) = serNat n.toNat ++ rest by rw [hsn]; simp]
          exact parseDigits_serNat n.toNat rest hrest
        simp [hpd, hcast]
  | pnull =>
    simp only [serPrim, List.cons_append, List.nil_append, parsePrim]
    simp

theorem skipWs_cons_ws (c : Char) (l : List Char) (h : isWsChar c = true) :
    skipWs (c :: l) = skipWs l := by
  conv_lhs => unfold skipWs
  simp [h]

theorem skipWs_cons_not (c : Char) (l : List Char) (h : isWsChar c = false) :
    skipWs (c :: l) = c :: l := by
  conv_lhs => unfold skipWs
  simp [h]

theorem skipWs_serPrim (v : Prim) (T : List Char) :
    skipWs (serPrim v ++ T) = serPrim v ++ T := by
  cases v with
  | pstr s =>
    simp only [serPrim, List.cons_append]
    exact skipWs_cons_not _ _ (by decide)
  | pint n =>
    by_cases hn : n < 0
    · simp only [serPrim, serInt, hn, if_true, List.cons_append]
      exact skipWs_cons_not _ _ (by decide)
    · cases hsn : serNat n.toNat with
      | nil => exact absurd hsn (serNat_ne_nil _)
      | cons c t =>
        have hd := serNat_digits n.toNat c (by rw [hsn]; exact List.mem_cons_self c t)
        have hws := (char_ne_of_isDigit c hd).2.2.2
        simp only [serPrim, serInt, hn, if_false, hsn, List.cons_append]
        exact skipWs_cons_not _ _ hws
  | pnull =>
    simp only [serPrim, List.cons_append]
    exact skipWs_cons_not _ _ (by decide)

theorem parseMember_ser (k : String) (v : Prim) (T : List Char)
    (hT : headDigit T = false) :
    parseMember ('\n' :: (serMember (k, v) ++ T)) = some ((k, v), T) := by
  have hmk : String.mk k.data = k := rfl
  unfold parseMember
  simp [serMember, serKey, ind8, ind4, skipWs, isWsChar, parseStrBody_escape,
        skipWs_serPrim, parsePrim_ser v T hT, hmk]

theorem headDigit_serMembersRest (ms : Record) (l : List Char) :
    headDigit (serMembersRest ms ++ '\n' :: l) = false := by
  cases ms <;> simp [serMembersRest, headDigit]

theorem parseMembersRest_ser :
    ∀ (ms : Record) (fuel : Nat) (rest : List Char), ms.length < fuel →
      parseMembersRest fuel (serMembersRest ms ++ '\n' :: (ind4 ++ rbrace :: rest)) =
        some (ms, rest) := by
  intro ms
  induction ms with
  | nil =>
    intro fuel rest h
    cases fuel with
    | zero => omega
    | succ f =>
      unfold parseMembersRest
      simp [serMembersRest, ind4, skipWs, isWsChar, rbrace]
  | cons m ms ih =>
    intro fuel rest h
    cases fuel with
    | zero => simp at h
    | succ f =>
      obtain ⟨k, v⟩ := m
      have hT : headDigit (serMembersRest ms ++ '\n' :: (ind4 ++ rbrace :: rest)) = false :=
        headDigit_serMembersRest ms _
      unfold parseMembersRest
      rw [show serMembersRest ((k, v) :: ms) ++ '\n' :: (ind4 ++ rbrace :: rest) =
            ',' :: '\n' :: (serMember (k, v) ++
              (serMembersRest ms ++ '\n' :: (ind4 ++ rbrace :: rest))) by
        simp [serMembersRest]]
      rw [skipWs_cons_not ',' _ (by decide)]
      have hcr : ¬(',' = rbrace) := by decide
      simp [hcr, parseMember_ser k v _ hT, ih f rest (by simpa using h)]

theorem parseRecord_ser (r : Record) (fuel : Nat) (T : List Char)
    (hf : r.length < fuel) :
    parseRecord fuel ('\n' :: (ind4 ++ (serRecord r ++ T))) = some (r, T) := by
  cases r with
  | nil =>
    unfold parseRecord
    simp [serRecord, ind4, skipWs, isWsChar, lbrace, rbrace]
  | cons m ms =>
    obtain ⟨k, v⟩ := m
    have hT : headDigit (serMembersRest ms ++ '\n' :: (ind4 ++ rbrace :: T)) = false :=
      headDigit_serMembersRest ms _
    have hrw : '\n' :: (ind4 ++ (serRecord ((k, v) :: ms) ++ T)) =
        '\n' :: (ind4 ++ (lbrace ::
          ('\n' :: (serMember (k, v) ++
            (serMembersRest ms ++ '\n' :: (ind4 ++ rbrace :: T)))))) := by
      simp [serRecord]
    rw [hrw]
    unfold parseRecord
    have hskip : skipWs ('\n' :: (ind4 ++ (lbrace ::
        ('\n' :: (serMember (k, v) ++
          (serMembersRest ms ++ '\n' :: (ind4 ++ rbrace :: T))))))) =
        lbrace :: ('\n' :: (serMember (k, v) ++
          (serMembersRest ms ++ '\n' :: (ind4 ++ rbrace :: T)))) := by
      simp [ind4, skipWs, isWsChar, lbrace]
    rw [hskip]
    have hskip2 : skipWs ('\n' :: (serMember (k, v) ++
        (serMembersRest ms ++ '\n' :: (ind4 ++ rbrace :: T)))) =
        '\"' :: (escapeStr k.data ++
          ('\"' :: (':' :: (' ' :: (serPrim v ++
            (serMembersRest ms ++ '\n' :: (ind4 ++ rbrace :: T))))))) := by
      simp [serMember, serKey, ind8, ind4, skipWs, isWsChar]
    have hq : ¬('\"' = rbrace) := by decide
    simp [hskip2, hq, parseMember_ser k v _ hT,
          parseMembersRest_ser ms fuel T
            (by simp only [List.length_cons] at hf; omega)]

theorem serRecord_head (r : Record) : ∃ t, serRecord r = lbrace :: t := by
  cases r with
  | nil => exact ⟨[rbrace], rfl⟩
  | cons m ms => exact ⟨_, rfl⟩

theorem parseRecsRest_ser :
    ∀ (rs : List Record) (fuel : Nat) (rest : List Char),
      (∀ r ∈ rs, rs.length + r.length < fuel) → rs.length < fuel →
      parseRecsRest fuel (serRecsRest rs ++ '\n' :: ']' :: rest) = some (rs, rest) := by
  intro rs
  induction rs with
  | nil =>
    intro fuel rest _ hl
    cases fuel with
    | zero => omega
    | succ f =>
      unfold parseRecsRest
      simp [serRecsRest, skipWs, isWsChar]
  | cons r rs2 ih =>
    intro fuel rest hall hl
    cases fuel with
    | zero => omega
    | succ f =>
      have hr : r.length < f := by
        have := hall r (List.mem_cons_self r rs2)
        simp only [List.length_cons] at this
        omega
      have hall2 : ∀ q ∈ rs2, rs2.length + q.length < f := by
        intro q hq
        have := hall q (List.mem_cons_of_mem r hq)
        simp only [List.length_cons] at this
        omega
      have hl2 : rs2.length < f := by
        simp only [List.length_cons] at hl
        omega
      have hrw : serRecsRest (r :: rs2) ++ '\n' :: ']' :: rest =
          ',' :: '\n' :: (ind4 ++ (serRecord r ++ (serRecsRest rs2 ++ '\n' :: ']' :: rest))) := by
        simp [serRecsRest]
      rw [hrw]
      unfold parseRecsRest
      rw [skipWs_cons_not ',' _ (by decide)]
      have hrec := parseRecord_ser r f (serRecsRest rs2 ++ '\n' :: ']' :: rest) hr
      simp [hrec, ih f rest hall2 hl2]

theorem length_serMembersRest_ge : ∀ ms : Record, ms.length ≤ (serMembersRest ms).length := by
  intro ms
  induction ms with
  | nil => simp [serMembersRest]
  | cons m ms ih =>
    simp only [serMembersRest, List.length_cons, List.length_append]
    omega

theorem length_serRecord_ge (r : Record) : r.length ≤ (serRecord r).length := by
  cases r with
  | nil => simp [serRecord]
  | cons m ms =>
    have := length_serMembersRest_ge ms
    simp only [serRecord, List.length_cons, List.length_append, ind4]
    simp
    omega

theorem length_serRecsRest_ge : ∀ rs : List Record, rs.length ≤ (serRecsRest rs).length := by
  intro rs
  induction rs with
  | nil => simp [serRecsRest]
  | cons r rs ih =>
    simp only [serRecsRest, List.length_cons, List.length_append]
    omega

theorem length_serRecsRest_mem :
    ∀ (rs : List Record) (r : Record), r ∈ rs →
      rs.length + r.length ≤ (serRecsRest rs).length := by
  intro rs
  induction rs with
  | nil => intro r h; simp at h
  | cons a rs2 ih =>
    intro r h
    rcases List.mem_cons.mp h with h1 | h2
    · subst h1
      have h3 := length_serRecord_ge r
      have h4 := length_serRecsRest_ge rs2
      simp only [serRecsRest, List.length_cons, List.length_append, ind4]
      simp
      omega
    · have h3 := ih r h2
      simp only [serRecsRest, List.length_cons, List.length_append]
      omega

theorem skipWs_nil : skipWs [] = [] := rfl

/-- C8: writing a record sequence in the persisted output format (JSON,
`ensure_ascii=False`, `indent=4`, non-ASCII text verbatim) and re-reading
it reproduces the same sequence — same field values, same field order
within each record, same record order.  The hypothesis restricts strings
to the characters this writer escapes exactly as `json.dump` does. -/
theorem c8_dump_load_roundtrip (rs : List Record) (hg : goodDoc rs = true) :
    loadRecords (dumpRecords rs) = some rs := by
  cases rs with
  | nil => rfl
  | cons r rs2 =>
    have hrw : dumpRecords (r :: rs2) =
        '[' :: ('\n' :: (ind4 ++ (serRecord r ++
          (serRecsRest rs2 ++ '\n' :: ']' :: [])))) := by
      simp [dumpRecords]
    have hlen : (dumpRecords (r :: rs2)).length =
        (serRecord r).length + (serRecsRest rs2).length + 8 := by
      rw [hrw]
      simp [ind4]
      omega
    obtain ⟨t, ht⟩ := serRecord_head r
    unfold loadRecords
    set F := (dumpRecords (r :: rs2)).length + 1 with hF
    have hb1 : r.length < F := by
      have := length_serRecord_ge r
      omega
    have hall : ∀ q ∈ rs2, rs2.length + q.length < F := by
      intro q hq
      have := length_serRecsRest_mem rs2 q hq
      omega
    have hl2 : rs2.length < F := by
      have := length_serRecsRest_ge rs2
      omega
    have hrec := parseRecord_ser r F (serRecsRest rs2 ++ '\n' :: ']' :: []) hb1
    have hrecs := parseRecsRest_ser rs2 F [] hall hl2
    have hskip : skipWs ('\n' :: (ind4 ++ (serRecord r ++
        (serRecsRest rs2 ++ '\n' :: ']' :: [])))) =
        lbrace :: (t ++ (serRecsRest rs2 ++ '\n' :: ']' :: [])) := by
      simp [ind4, skipWs, isWsChar, ht, lbrace]
    have hlb : ¬(lbrace = ']') := by decide
    rw [hrw]
    rw [skipWs_cons_not '[' _ (by decide)]
    simp only [hskip]
    simp [hlb, hrec, hrecs, skipWs_nil]

/-- Witness for C8: a document with accented text, a number, an absent
value and an empty record round-trips unchanged. -/
theorem c8_dump_load_roundtrip_witness :
    loadRecords (dumpRecords c8SampleDoc) = some c8SampleDoc :=
  c8_dump_load_roundtrip c8SampleDoc (by decide)
